import Mathlib

/-!
Verification of the room/presence/session coordination core of the
`pwa-chat-app` repository (`server.js`), shallowly embedded in Lean.

JavaScript `Map` objects (insertion ordered, unique keys) are modelled as
association lists over `String` keys, and `Set` objects as duplicate-free
lists; the Socket.io event handlers become pure functions from a
`ServerState` (the module-level maps of `server.js`) to a new state plus a
list of emitted events.
-/

namespace PwaChat

/-- JS `Map` with string keys: an insertion-ordered association list. -/
abbrev JMap (α : Type) : Type := List (String × α)

/-- `Map.get`: the value at a key, if present. -/
def alookup {α : Type} : JMap α → String → Option α
  | [], _ => none
  | (k', v) :: rest, k => if k' = k then some v else alookup rest k

/-- `Map.set`: overwrite in place if the key exists, else append. -/
def aset {α : Type} : JMap α → String → α → JMap α
  | [], k, v => [(k, v)]
  | (k', v') :: rest, k, v =>
      if k' = k then (k, v) :: rest else (k', v') :: aset rest k v

/-- `Map.delete`: remove the entry at a key. -/
def adelete {α : Type} : JMap α → String → JMap α
  | [], _ => []
  | (k', v') :: rest, k => if k' = k then rest else (k', v') :: adelete rest k

/-- `Set.add` on a duplicate-free list. -/
def sadd (s : List String) (x : String) : List String :=
  if x ∈ s then s else s ++ [x]

/-- `Set.delete` on a duplicate-free list. -/
def sdelete (s : List String) (x : String) : List String :=
  s.erase x

/-- JS truthiness of a string-or-absent value (`undefined`, `null` and `""`
are falsy). -/
def truthyStr : Option String → Bool
  | none => false
  | some s => s != ""

/-- Room metadata stored in `roomDirectory`. -/
structure RoomInfo where
  password : String
  createdAt : Nat
deriving DecidableEq, Repr

/-- An entry of a `roomMembers` or `callParticipants` inner map. -/
structure Member where
  id : String
  user : String
  icon : Option String
deriving DecidableEq, Repr

/-- A `userProfiles` entry. -/
structure Profile where
  user : String
  icon : Option String
  room : Option String
deriving DecidableEq, Repr

/-- A location object carried by a chat message (opaque to the server). -/
structure GeoLocation where
  latitude : Int
  longitude : Int
deriving DecidableEq, Repr

/-- A chat entry as stored in `roomMessages` and broadcast as `message`. -/
structure ChatPayload where
  user : String
  time : Nat
  text : Option String
  icon : Option String
  location : Option GeoLocation
deriving DecidableEq, Repr

/-- The `{id, user}` projection broadcast by `emitRoomUsers`. -/
structure RosterEntry where
  id : String
  user : String
deriving DecidableEq, Repr

/-- The module-level mutable maps of `server.js`.  `roomSockets` doubles as
the Socket.io broadcast-group membership, since `join`/`leave` on the
socket and the set are always performed together. -/
structure ServerState where
  roomDirectory : JMap RoomInfo
  roomSockets : JMap (List String)
  roomMessages : JMap (List ChatPayload)
  userProfiles : JMap Profile
  callParticipants : JMap (JMap Member)
  roomMembers : JMap (JMap Member)
deriving DecidableEq, Repr

/-- Events emitted towards clients by the handlers. -/
inductive Emit where
  /-- `socket.to(room).emit('system', text)` from `sender`. -/
  | systemToOthers (room sender text : String)
  /-- `socket.emit('call-participants', payload)` to one session. -/
  | callParticipantsToOne (sid : String) (payload : List Member)
  /-- `io.to(room).emit('call-participants', payload)`. -/
  | callParticipantsToRoom (room : String) (payload : List Member)
  /-- `io.to(room).emit('room-users', payload)`. -/
  | roomUsers (room : String) (payload : List RosterEntry)
  /-- `io.to(room).emit('message', payload)`. -/
  | messageToRoom (room : String) (payload : ChatPayload)
  /-- `client.emit('room-deleted', {room})` to one session. -/
  | roomDeleted (sid room : String)
  /-- direct `room-blocked` notice to one session. -/
  | roomBlocked (sid room : String)
deriving DecidableEq, Repr

/-- JS `String.prototype.trim`: drop whitespace from both ends (structural
model of `String.trim`, which the kernel cannot reduce). -/
def jsTrim (s : String) : String :=
  ⟨((s.data.dropWhile Char.isWhitespace).reverse.dropWhile Char.isWhitespace).reverse⟩

/-- `sanitizeRoomName`: trim if a string, else `''`. -/
def sanitizeRoomName : Option String → String
  | some s => jsTrim s
  | none => ""

/-- `ensureRoom`: initialises the dependent per-room collections; returns
`false` only when the room is not in the directory. -/
def ensureRoom (st : ServerState) (name : String) : ServerState × Bool :=
  if (alookup st.roomDirectory name).isNone then (st, false)
  else
    ({ st with
        roomSockets := match alookup st.roomSockets name with
          | some _ => st.roomSockets
          | none => aset st.roomSockets name []
        roomMembers := match alookup st.roomMembers name with
          | some _ => st.roomMembers
          | none => aset st.roomMembers name []
        roomMessages := match alookup st.roomMessages name with
          | some _ => st.roomMessages
          | none => aset st.roomMessages name [] }, true)

/-- The payload computed by `broadcastParticipants` (`[]` when the room has
no call-roster entry). -/
def participantsPayload (st : ServerState) (room : String) : List Member :=
  match alookup st.callParticipants room with
  | some participants => participants.map Prod.snd
  | none => []

/-- The payload computed by `emitRoomUsers` (`{id, user}` of each member). -/
def roomUsersPayload (st : ServerState) (room : String) : List RosterEntry :=
  match alookup st.roomMembers room with
  | some members => members.map (fun q => { id := q.2.id, user := q.2.user })
  | none => []

/-- `MAX_MESSAGES_PER_ROOM` from `server.js`. -/
def MAX_MESSAGES_PER_ROOM : Nat := 500

/-- The payload of a `join` event; `none` fields model absent or
non-string values. -/
structure JoinPayload where
  room : Option String
  password : Option String
  user : Option String
  icon : Option String
deriving DecidableEq, Repr

/-- The failure cases of the `join` acknowledgement, in the order the
handler checks them. -/
inductive JoinError where
  | missingRoom
  | roomNotFound
  | wrongPassword
  | missingName
  | ensureFailed
deriving DecidableEq, Repr

/-- The value passed to the `join` callback. -/
inductive JoinReply where
  | ok (room : String) (messages : List ChatPayload)
  | err (e : JoinError)
deriving DecidableEq, Repr

/-- Whether a `join` acknowledgement reports success. -/
def JoinReply.isOk : JoinReply → Bool
  | .ok _ _ => true
  | .err _ => false

/-- `roomInfo.password !== password`, negated: the stored password is a
string, the supplied one may be `undefined`. -/
def passwordMatches (stored : String) : Option String → Bool
  | some p => stored == p
  | none => false

/-- The `socket.on('join')` handler of `server.js`. -/
def joinHandler (st : ServerState) (sid : String) (p : JoinPayload) :
    ServerState × List Emit × JoinReply :=
  let roomName := sanitizeRoomName p.room
  let rawName := match p.user with
    | some u => jsTrim u
    | none => ""
  if roomName = "" then (st, [], .err .missingRoom)
  else
    match alookup st.roomDirectory roomName with
    | none => (st, [], .err .roomNotFound)
    | some roomInfo =>
      if ¬ passwordMatches roomInfo.password p.password then
        (st, [], .err .wrongPassword)
      else if rawName = "" then (st, [], .err .missingName)
      else
        let icon := if truthyStr p.icon then p.icon else none
        match ensureRoom st roomName with
        | (st1, false) => (st1, [], .err .ensureFailed)
        | (st1, true) =>
          let ids := (alookup st1.roomSockets roomName).getD []
          let st2 := { st1 with
            roomSockets := aset st1.roomSockets roomName (sadd ids sid) }
          let profile : Profile := { user := rawName, icon := icon, room := some roomName }
          let st3 := { st2 with userProfiles := aset st2.userProfiles sid profile }
          let members := (alookup st3.roomMembers roomName).getD []
          let st4 := { st3 with
            roomMembers := aset st3.roomMembers roomName
              (aset members sid { id := sid, user := rawName, icon := icon }) }
          let emits := [
            Emit.systemToOthers roomName sid (rawName ++ " joined " ++ roomName),
            Emit.callParticipantsToOne sid (participantsPayload st4 roomName),
            Emit.roomUsers roomName (roomUsersPayload st4 roomName)]
          let history := (alookup st4.roomMessages roomName).getD []
          (st4, emits, .ok roomName history)

/-- The payload of a chat `message` event. -/
structure MsgPayload where
  text : Option String
  location : Option GeoLocation
  icon : Option String
deriving DecidableEq, Repr

/-- The history push with FIFO eviction at `MAX_MESSAGES_PER_ROOM`
(`history.push` followed by the `splice` in the `message` handler). -/
def appendHistory (history : List ChatPayload) (payload : ChatPayload) :
    List ChatPayload :=
  let h := history ++ [payload]
  if h.length > MAX_MESSAGES_PER_ROOM then h.drop (h.length - MAX_MESSAGES_PER_ROOM)
  else h

/-- The `socket.on('message')` handler of `server.js`; `now` stands for
`Date.now()`. -/
def messageHandler (st : ServerState) (sid : String) (msg : MsgPayload)
    (now : Nat) : ServerState × List Emit :=
  match alookup st.userProfiles sid with
  | none => (st, [])
  | some profile =>
    if ¬ truthyStr profile.room then (st, [])
    else
      let room := profile.room.getD ""
      match alookup st.roomSockets room with
      | none => (st, [])
      | some sockets =>
        if sid ∉ sockets then (st, [])
        else
          let text := match msg.text with
            | some t => jsTrim t
            | none => ""
          let location := msg.location
          let incomingIcon := msg.icon
          let iconInit := if truthyStr profile.icon then profile.icon else none
          let (st1, icon) :=
            if truthyStr incomingIcon ∧ ¬ truthyStr profile.icon then
              let st' := { st with
                userProfiles := aset st.userProfiles sid { profile with icon := incomingIcon } }
              let st'' := match alookup st'.roomMembers room with
                | some members =>
                  match alookup members sid with
                  | some existing =>
                    { st' with roomMembers := (aset st'.roomMembers room
                        (aset members sid { existing with icon := incomingIcon })) }
                  | none => st'
                | none => st'
              (st'', incomingIcon)
            else (st, iconInit)
          if text = "" ∧ location = none then (st1, [])
          else
            let payload : ChatPayload := {
              user := profile.user
              time := now
              text := if text = "" then none else some text
              icon := if truthyStr icon then icon
                      else if truthyStr incomingIcon then incomingIcon else none
              location := location }
            let history := (alookup st1.roomMessages room).getD []
            let history := appendHistory history payload
            ({ st1 with roomMessages := aset st1.roomMessages room history },
             [Emit.messageToRoom room payload])

/-- The `socket.on('webrtc')` handler: the resolved target room (when the
event is not discarded) and the recipients (`socket.to(target)`). -/
def webrtcHandler (st : ServerState) (sid : String) (room : Option String) :
    Option String × List String :=
  let profile := alookup st.userProfiles sid
  let t := sanitizeRoomName room
  let targetRoom : Option String :=
    if t ≠ "" then some t else profile.bind Profile.room
  match targetRoom with
  | none => (none, [])
  | some r =>
    if r = "" then (none, [])
    else (some r, ((alookup st.roomSockets r).getD []).filter (fun x => x ≠ sid))

/-- The payload of a `call-participation` event.  The `icon` field is
doubly optional: the outer layer models `hasOwnProperty(data, 'icon')`,
the inner one the value (with `none` for a falsy value). -/
structure CallPayload where
  action : Option String
  room : Option String
  user : Option String
  icon : Option (Option String)
deriving DecidableEq, Repr

/-- The `socket.on('call-participation')` handler of `server.js`. -/
def callParticipationHandler (st : ServerState) (sid : String)
    (data : CallPayload) : ServerState × List Emit :=
  if ¬ truthyStr data.action then (st, [])
  else
    match alookup st.userProfiles sid with
    | none => (st, [])
    | some profile =>
      if ¬ truthyStr profile.room then (st, [])
      else
        let room :=
          let t := sanitizeRoomName data.room
          if t ≠ "" then t else profile.room.getD ""
        if (alookup st.roomDirectory room).isNone then (st, [])
        else
          match alookup st.roomSockets room with
          | none => (st, [])
          | some sockets =>
            if sid ∉ sockets then (st, [])
            else
              let participants := (alookup st.callParticipants room).getD []
              let (st1, changed, emits1) :=
                if data.action = some "leave" then
                  if (alookup participants sid).isSome then
                    let participants1 := adelete participants sid
                    (if participants1.isEmpty then
                      { st with callParticipants := adelete st.callParticipants room }
                     else
                      { st with callParticipants := aset st.callParticipants room participants1 },
                     true, ([] : List Emit))
                  else (st, false, [])
                else if data.action = some "join" ∨ data.action = some "update" then
                  let nameFromData : Option String := match data.user with
                    | some u => if jsTrim u ≠ "" then some (jsTrim u) else none
                    | none => none
                  let iconFromData : Option (Option String) := match data.icon with
                    | some v => some (if truthyStr v then v else none)
                    | none => none
                  let participantUser := match nameFromData with
                    | some u => u
                    | none => if profile.user ≠ "" then profile.user else sid
                  let participantIcon := match iconFromData with
                    | some v => v
                    | none => profile.icon
                  let info : Member :=
                    { id := sid, user := participantUser, icon := participantIcon }
                  let stA := { st with
                    callParticipants := aset st.callParticipants room (aset participants sid info) }
                  let stB := { stA with
                    userProfiles := aset stA.userProfiles sid
                      { user := participantUser, icon := participantIcon, room := some room } }
                  match alookup stB.roomMembers room with
                  | some members =>
                    if (alookup members sid).isSome then
                      let stC := { stB with
                        roomMembers := aset stB.roomMembers room (aset members sid info) }
                      (stC, true, [Emit.roomUsers room (roomUsersPayload stC room)])
                    else (stB, true, [])
                  | none => (stB, true, [])
                else (st, false, [])
              if changed then
                (st1, emits1 ++ [Emit.callParticipantsToRoom room (participantsPayload st1 room)])
              else (st1, emits1)

/-- The `ids.delete(socket.id)` step guarded by `if (ids)`: erase a session
from a room's socket set, when that room has one. -/
def removeSocketEntry (m : JMap (List String)) (room sid : String) :
    JMap (List String) :=
  match alookup m room with
  | some ids => aset m room (sdelete ids sid)
  | none => m

/-- The `participants.delete(...)` step guarded by
`if (participants && participants.has(...))`, with the room's entry removed
entirely when the roster empties; the boolean reports whether anything
changed (and hence whether the roster is re-broadcast). -/
def removeCallEntry (cp : JMap (JMap Member)) (room sid : String) :
    JMap (JMap Member) × Bool :=
  match alookup cp room with
  | some participants =>
    if (alookup participants sid).isSome then
      let participants1 := adelete participants sid
      (if participants1.isEmpty then adelete cp room
       else aset cp room participants1, true)
    else (cp, false)
  | none => (cp, false)

/-- The `members.delete(...)` step guarded by
`if (members && members.has(...))`; the boolean reports whether the room
roster changed (and hence whether `room-users` is re-broadcast). -/
def removeMemberEntry (mm : JMap (JMap Member)) (room sid : String) :
    JMap (JMap Member) × Bool :=
  match alookup mm room with
  | some members =>
    if (alookup members sid).isSome then
      (aset mm room (adelete members sid), true)
    else (mm, false)
  | none => (mm, false)

/-- The `socket.on('disconnect')` handler of `server.js`. -/
def disconnectHandler (st : ServerState) (sid : String) :
    ServerState × List Emit :=
  let profile := alookup st.userProfiles sid
  let roomOpt := profile.bind Profile.room
  let (st1, emits) :=
    if ¬ truthyStr roomOpt then (st, ([] : List Emit))
    else
      let room := roomOpt.getD ""
      let stA := { st with roomSockets := removeSocketEntry st.roomSockets room sid }
      let displayName := match profile with
        | some pr => if pr.user ≠ "" then pr.user else sid
        | none => sid
      let e0 := [Emit.systemToOthers room sid (displayName ++ " left " ++ room)]
      let rc := removeCallEntry stA.callParticipants room sid
      let stB := { stA with callParticipants := rc.1 }
      let e1 := if rc.2 then
          [Emit.callParticipantsToRoom room (participantsPayload stB room)]
        else []
      let rm := removeMemberEntry stB.roomMembers room sid
      let stC := { stB with roomMembers := rm.1 }
      let e2 := if rm.2 then [Emit.roomUsers room (roomUsersPayload stC room)] else []
      (stC, e0 ++ e1 ++ e2)
  ({ st1 with userProfiles := adelete st1.userProfiles sid }, emits)

/-- The `deleteRoom` function of `server.js` (admin room deletion). -/
def deleteRoom (st : ServerState) (name : Option String) :
    Except String (ServerState × List Emit) :=
  let roomName := sanitizeRoomName name
  if (alookup st.roomDirectory roomName).isNone then .error "Room not found."
  else
    let (st1, emits) := match alookup st.roomSockets roomName with
      | some sockets =>
        let st' := sockets.foldl (fun (acc : ServerState) (sidI : String) =>
          match alookup acc.userProfiles sidI with
          | some pr => { acc with userProfiles := aset acc.userProfiles sidI { pr with room := none } }
          | none => acc) st
        ({ st' with roomSockets := adelete st'.roomSockets roomName },
         sockets.map (fun sidI => Emit.roomDeleted sidI roomName))
      | none => (st, [])
    let st2 := { st1 with
      roomDirectory := adelete st1.roomDirectory roomName
      roomMessages := adelete st1.roomMessages roomName
      roomMembers := adelete st1.roomMembers roomName
      callParticipants := adelete st1.callParticipants roomName }
    .ok (st2, emits)

/-- A state with one room `"r"` (password `"p"`) already holding five
members `s1`..`s5`. -/
def stFive : ServerState where
  roomDirectory := [("r", { password := "p", createdAt := 0 })]
  roomSockets := [("r", ["s1", "s2", "s3", "s4", "s5"])]
  roomMessages := [("r", [])]
  userProfiles := [
    ("s1", { user := "u1", icon := none, room := some "r" }),
    ("s2", { user := "u2", icon := none, room := some "r" }),
    ("s3", { user := "u3", icon := none, room := some "r" }),
    ("s4", { user := "u4", icon := none, room := some "r" }),
    ("s5", { user := "u5", icon := none, room := some "r" })]
  callParticipants := []
  roomMembers := [("r", [
    ("s1", { id := "s1", user := "u1", icon := none }),
    ("s2", { id := "s2", user := "u2", icon := none }),
    ("s3", { id := "s3", user := "u3", icon := none }),
    ("s4", { id := "s4", user := "u4", icon := none }),
    ("s5", { id := "s5", user := "u5", icon := none })])]

/-- A state with two fresh rooms `"a"` and `"b"`, both with password
`"p"` and no members. -/
def stTwoRooms : ServerState where
  roomDirectory := [("a", { password := "p", createdAt := 0 }),
                    ("b", { password := "p", createdAt := 0 })]
  roomSockets := [("a", []), ("b", [])]
  roomMessages := [("a", []), ("b", [])]
  userProfiles := []
  callParticipants := []
  roomMembers := [("a", []), ("b", [])]

/-- The state reached from `stTwoRooms` after session `"s"` joins room
`"a"` and then, without leaving, room `"b"`. -/
def stDouble : ServerState :=
  (joinHandler (joinHandler stTwoRooms "s" ⟨some "a", some "p", some "u", none⟩).1
    "s" ⟨some "b", some "p", some "u", none⟩).1

/-- A state with room `"r"` holding members `s1`, `s2`, of which `s1` is
the only call participant. -/
def stCall : ServerState where
  roomDirectory := [("r", { password := "p", createdAt := 0 })]
  roomSockets := [("r", ["s1", "s2"])]
  roomMessages := [("r", [])]
  userProfiles := [("s1", { user := "u1", icon := none, room := some "r" }),
                   ("s2", { user := "u2", icon := none, room := some "r" })]
  callParticipants := [("r", [("s1", { id := "s1", user := "u1", icon := none })])]
  roomMembers := [("r", [("s1", { id := "s1", user := "u1", icon := none }),
                         ("s2", { id := "s2", user := "u2", icon := none })])]

/-- A plain chat entry used to instantiate the history theorems. -/
def samplePayload (i : Nat) : ChatPayload :=
  { user := "u", time := i, text := some "t", icon := none, location := none }

/-- Well-formedness of a server state, as maintained by the JS runtime: a
`Map` has unique keys and a `Set` has unique elements. -/
abbrev WFState (st : ServerState) : Prop :=
  (st.roomDirectory.map Prod.fst).Nodup ∧
  (st.roomSockets.map Prod.fst).Nodup ∧
  (st.roomMessages.map Prod.fst).Nodup ∧
  (st.userProfiles.map Prod.fst).Nodup ∧
  (st.callParticipants.map Prod.fst).Nodup ∧
  (st.roomMembers.map Prod.fst).Nodup ∧
  (∀ q ∈ st.roomSockets, q.2.Nodup) ∧
  (∀ q ∈ st.callParticipants, (q.2.map Prod.fst).Nodup) ∧
  (∀ q ∈ st.roomMembers, (q.2.map Prod.fst).Nodup)

/-! ### Lemmas about the `JMap` and set primitives -/

theorem alookup_aset_self {α : Type} (m : JMap α) (k : String) (v : α) :
    alookup (aset m k v) k = some v := by
  induction m with
  | nil => simp [aset, alookup]
  | cons hd tl ih =>
    obtain ⟨k', v'⟩ := hd
    by_cases h : k' = k
    · subst h; simp [aset, alookup]
    · simp [aset, alookup, h, ih]

theorem alookup_aset_ne {α : Type} (m : JMap α) (k k' : String) (v : α)
    (h : k' ≠ k) : alookup (aset m k v) k' = alookup m k' := by
  induction m with
  | nil => simp [aset, alookup, Ne.symm h]
  | cons hd tl ih =>
    obtain ⟨ka, va⟩ := hd
    by_cases hk : ka = k
    · subst hk
      simp [aset, alookup, Ne.symm h]
    · simp only [aset, if_neg hk, alookup]
      by_cases hk' : ka = k'
      · simp [hk']
      · simp [hk', ih]

theorem alookup_adelete_ne {α : Type} (m : JMap α) (k k' : String)
    (h : k' ≠ k) : alookup (adelete m k) k' = alookup m k' := by
  induction m with
  | nil => simp [adelete]
  | cons hd tl ih =>
    obtain ⟨ka, va⟩ := hd
    by_cases hk : ka = k
    · subst hk
      simp [adelete, alookup, Ne.symm h]
    · simp only [adelete, if_neg hk, alookup]
      by_cases hk' : ka = k'
      · simp [hk']
      · simp [hk', ih]

theorem alookup_eq_none_of_not_mem_keys {α : Type} (m : JMap α) (k : String)
    (h : k ∉ m.map Prod.fst) : alookup m k = none := by
  induction m with
  | nil => simp [alookup]
  | cons hd tl ih =>
    obtain ⟨ka, va⟩ := hd
    simp only [List.map_cons, List.mem_cons, not_or] at h
    simp [alookup, Ne.symm h.1, ih h.2]

theorem alookup_adelete_self {α : Type} (m : JMap α) (k : String)
    (hnd : (m.map Prod.fst).Nodup) : alookup (adelete m k) k = none := by
  induction m with
  | nil => simp [adelete, alookup]
  | cons hd tl ih =>
    obtain ⟨ka, va⟩ := hd
    simp only [List.map_cons, List.nodup_cons] at hnd
    by_cases hk : ka = k
    · subst hk
      simpa [adelete] using alookup_eq_none_of_not_mem_keys tl ka hnd.1
    · simp [adelete, hk, alookup, ih hnd.2]

theorem alookup_mem {α : Type} (m : JMap α) (k : String) (v : α)
    (h : alookup m k = some v) : (k, v) ∈ m := by
  induction m with
  | nil => simp [alookup] at h
  | cons hd tl ih =>
    obtain ⟨ka, va⟩ := hd
    by_cases hk : ka = k
    · subst hk
      have hv : va = v := by simpa [alookup] using h
      subst hv
      exact List.mem_cons_self _ _
    · simp only [alookup, if_neg hk] at h
      exact List.mem_cons_of_mem _ (ih h)

theorem length_sadd (s : List String) (x : String) :
    (sadd s x).length = s.length + (if x ∈ s then 0 else 1) := by
  by_cases h : x ∈ s <;> simp [sadd, h]

theorem mem_sadd (s : List String) (x y : String) :
    y ∈ sadd s x ↔ y ∈ s ∨ y = x := by
  by_cases h : x ∈ s
  · simp only [sadd, if_pos h]
    constructor
    · exact Or.inl
    · rintro (hy | rfl) <;> [exact hy; exact h]
  · simp [sadd, if_neg h]

theorem not_mem_sdelete_self (s : List String) (x : String)
    (hnd : s.Nodup) : x ∉ sdelete s x := by
  intro hx
  exact absurd ((hnd.mem_erase_iff).mp hx).1 (by simp)

theorem adelete_lookup_none {α : Type} (m : JMap α) (k : String)
    (h : alookup m k = none) : adelete m k = m := by
  induction m with
  | nil => rfl
  | cons hd tl ih =>
    obtain ⟨ka, va⟩ := hd
    by_cases hk : ka = k
    · subst hk
      simp [alookup] at h
    · simp only [alookup, if_neg hk] at h
      simp [adelete, hk, ih h]

/-! ### Lemmas about the shared teardown helpers -/

theorem removeSocket_getD (m : JMap (List String)) (room sid : String) :
    (alookup (removeSocketEntry m room sid) room).getD []
      = sdelete ((alookup m room).getD []) sid := by
  unfold removeSocketEntry
  rcases h : alookup m room with _ | ids
  · simp [h, sdelete]
  · simp [alookup_aset_self]

theorem removeSocket_ne (m : JMap (List String)) (room sid r' : String)
    (h : r' ≠ room) :
    alookup (removeSocketEntry m room sid) r' = alookup m r' := by
  unfold removeSocketEntry
  rcases hS : alookup m room with _ | ids
  · rfl
  · exact alookup_aset_ne _ _ _ _ h

theorem removeMember_getD (mm : JMap (JMap Member)) (room sid : String) :
    (alookup (removeMemberEntry mm room sid).1 room).getD []
      = adelete ((alookup mm room).getD []) sid := by
  unfold removeMemberEntry
  rcases h : alookup mm room with _ | members
  · simp [h, adelete]
  · by_cases hs : (alookup members sid).isSome = true
    · simp [if_pos hs, alookup_aset_self]
    · have hnone : alookup members sid = none := by
        rcases hx : alookup members sid with _ | v
        · rfl
        · rw [hx] at hs
          simp at hs
      simp [if_neg hs, h, adelete_lookup_none _ _ hnone]

theorem removeMember_ne (mm : JMap (JMap Member)) (room sid r' : String)
    (h : r' ≠ room) :
    alookup (removeMemberEntry mm room sid).1 r' = alookup mm r' := by
  unfold removeMemberEntry
  rcases hS : alookup mm room with _ | members
  · rfl
  · by_cases hs : (alookup members sid).isSome = true
    · simp only [if_pos hs]
      exact alookup_aset_ne _ _ _ _ h
    · simp [if_neg hs]

theorem removeCall_getD (cp : JMap (JMap Member)) (room sid : String)
    (hk : (cp.map Prod.fst).Nodup) :
    (alookup (removeCallEntry cp room sid).1 room).getD []
      = adelete ((alookup cp room).getD []) sid := by
  unfold removeCallEntry
  rcases h : alookup cp room with _ | parts
  · simp [h, adelete]
  · by_cases hs : (alookup parts sid).isSome = true
    · simp only [if_pos hs, Option.getD_some]
      by_cases he : (adelete parts sid).isEmpty = true
      · have hnil : adelete parts sid = [] := by rwa [List.isEmpty_iff] at he
        rw [if_pos he]
        simp [alookup_adelete_self cp room hk, hnil]
      · rw [if_neg he]
        simp [alookup_aset_self]
    · have hnone : alookup parts sid = none := by
        rcases hx : alookup parts sid with _ | v
        · rfl
        · rw [hx] at hs
          simp at hs
      simp [if_neg hs, h, adelete_lookup_none _ _ hnone]

theorem removeCall_ne (cp : JMap (JMap Member)) (room sid r' : String)
    (h : r' ≠ room) :
    alookup (removeCallEntry cp room sid).1 r' = alookup cp r' := by
  unfold removeCallEntry
  rcases hS : alookup cp room with _ | parts
  · rfl
  · by_cases hs : (alookup parts sid).isSome = true
    · simp only [if_pos hs]
      by_cases he : (adelete parts sid).isEmpty = true
      · rw [if_pos he]
        exact alookup_adelete_ne _ _ _ h
      · rw [if_neg he]
        exact alookup_aset_ne _ _ _ _ h
    · simp [if_neg hs]

theorem ensureRoom_snd (st : ServerState) (r : String) :
    (ensureRoom st r).2 = !(alookup st.roomDirectory r).isNone := by
  unfold ensureRoom
  split <;> simp_all [Option.isSome_iff_ne_none]

theorem ensureRoom_roomDirectory (st : ServerState) (r : String) :
    (ensureRoom st r).1.roomDirectory = st.roomDirectory := by
  unfold ensureRoom
  split <;> rfl

theorem ensureRoom_userProfiles (st : ServerState) (r : String) :
    (ensureRoom st r).1.userProfiles = st.userProfiles := by
  unfold ensureRoom
  split <;> rfl

theorem ensureRoom_callParticipants (st : ServerState) (r : String) :
    (ensureRoom st r).1.callParticipants = st.callParticipants := by
  unfold ensureRoom
  split <;> rfl

theorem ensureRoom_lookup_sockets (st : ServerState) (r : String)
    (h : (alookup st.roomDirectory r).isNone = false) :
    alookup (ensureRoom st r).1.roomSockets r
      = some ((alookup st.roomSockets r).getD []) := by
  unfold ensureRoom
  simp only [h, Bool.false_eq_true, if_false]
  rcases hS : alookup st.roomSockets r with _ | s
  · simp [hS, alookup_aset_self]
  · simp [hS]

theorem ensureRoom_lookup_members (st : ServerState) (r : String)
    (h : (alookup st.roomDirectory r).isNone = false) :
    alookup (ensureRoom st r).1.roomMembers r
      = some ((alookup st.roomMembers r).getD []) := by
  unfold ensureRoom
  simp only [h, Bool.false_eq_true, if_false]
  rcases hS : alookup st.roomMembers r with _ | s
  · simp [hS, alookup_aset_self]
  · simp [hS]

theorem ensureRoom_lookup_sockets_ne (st : ServerState) (r r' : String)
    (hne : r' ≠ r) :
    alookup (ensureRoom st r).1.roomSockets r' = alookup st.roomSockets r' := by
  unfold ensureRoom
  split
  · rfl
  · rcases hS : alookup st.roomSockets r with _ | s
    · simp [alookup_aset_ne _ _ _ _ hne]
    · simp

theorem ensureRoom_lookup_members_ne (st : ServerState) (r r' : String)
    (hne : r' ≠ r) :
    alookup (ensureRoom st r).1.roomMembers r' = alookup st.roomMembers r' := by
  unfold ensureRoom
  split
  · rfl
  · rcases hS : alookup st.roomMembers r with _ | s
    · simp [alookup_aset_ne _ _ _ _ hne]
    · simp

/-- C1 counterexample: with room `"r"` already holding five members, the
join of a sixth distinct session succeeds (the handler has no `RoomFull`
rejection) and the room's membership count reaches 6. -/
theorem C1_join_no_cap_counterexample :
    (joinHandler stFive "s6" ⟨some "r", some "p", some "u6", none⟩).2.2.isOk = true ∧
    ((alookup (joinHandler stFive "s6" ⟨some "r", some "p", some "u6", none⟩).1.roomSockets
      "r").getD []).length = 6 := by
  decide

/-- C1 (amended): the join handler enforces no membership cap at all: any
join request passing the four validation checks (non-empty trimmed room
name, existing room, exact password match, non-empty trimmed user name)
succeeds, and the room's socket set grows by one when the session was not
yet a member (in particular a sixth distinct session joining a five-member
room brings the count to six) and is unchanged on a rejoin. -/
theorem C1_join_never_roomFull (st : ServerState) (sid : String)
    (p : JoinPayload) (info : RoomInfo)
    (hroom : sanitizeRoomName p.room ≠ "")
    (hdir : alookup st.roomDirectory (sanitizeRoomName p.room) = some info)
    (hpw : passwordMatches info.password p.password = true)
    (hname : (match p.user with | some u => jsTrim u | none => "") ≠ "") :
    (joinHandler st sid p).2.2.isOk = true ∧
    ((alookup (joinHandler st sid p).1.roomSockets (sanitizeRoomName p.room)).getD []).length
      = ((alookup st.roomSockets (sanitizeRoomName p.room)).getD []).length +
        (if sid ∈ (alookup st.roomSockets (sanitizeRoomName p.room)).getD [] then 0 else 1) := by
  have hnn : (alookup st.roomDirectory (sanitizeRoomName p.room)).isNone = false := by
    rw [hdir]; rfl
  have hsock := ensureRoom_lookup_sockets st (sanitizeRoomName p.room) hnn
  rcases hE : ensureRoom st (sanitizeRoomName p.room) with ⟨st1, b⟩
  have hb : b = true := by
    have hsnd := congrArg Prod.snd hE
    rw [ensureRoom_snd, hnn] at hsnd
    simpa using hsnd.symm
  subst hb
  rw [hE] at hsock
  simp only [joinHandler, hdir, hE, hpw, if_neg hroom, if_neg hname]
  simp only [not_true, Bool.true_eq_false, if_false, ite_false]
  constructor
  · rfl
  · simp only [alookup_aset_self, Option.getD_some, hsock, length_sadd]

theorem C1_join_never_roomFull_witness :
    (joinHandler stFive "s6" ⟨some "r", some "p", some "u6", none⟩).2.2.isOk = true ∧
    ((alookup (joinHandler stFive "s6" ⟨some "r", some "p", some "u6", none⟩).1.roomSockets
        (sanitizeRoomName (some "r"))).getD []).length
      = ((alookup stFive.roomSockets (sanitizeRoomName (some "r"))).getD []).length +
        (if "s6" ∈ (alookup stFive.roomSockets (sanitizeRoomName (some "r"))).getD []
         then 0 else 1) :=
  C1_join_never_roomFull stFive "s6" ⟨some "r", some "p", some "u6", none⟩
    { password := "p", createdAt := 0 } (by decide) (by decide) (by decide) (by decide)

/-- C2 counterexample: after session `"s"` joins room `"a"` and then room
`"b"`, it is registered in the socket sets and member maps of both rooms
at once — `join` never removes the previous registration. -/
theorem C2_single_room_counterexample :
    "s" ∈ (alookup stDouble.roomSockets "a").getD [] ∧
    "s" ∈ (alookup stDouble.roomSockets "b").getD [] ∧
    (alookup ((alookup stDouble.roomMembers "a").getD []) "s").isSome = true ∧
    (alookup ((alookup stDouble.roomMembers "b").getD []) "s").isSome = true := by
  decide

/-- C2 (amended): `join` registers the session in the target room without
deregistering it anywhere else: every other room's socket set and member
map are untouched, so a session that is a member of room A and then
successfully joins room B is afterwards registered in both membership
registries; only the profile's current-room field switches to B. -/
theorem C2_join_registers_without_deregistering (st : ServerState)
    (sid : String) (p : JoinPayload) :
    (∀ r', r' ≠ sanitizeRoomName p.room →
      alookup (joinHandler st sid p).1.roomSockets r' = alookup st.roomSockets r' ∧
      alookup (joinHandler st sid p).1.roomMembers r' = alookup st.roomMembers r') ∧
    ((joinHandler st sid p).2.2.isOk = true →
      sid ∈ (alookup (joinHandler st sid p).1.roomSockets (sanitizeRoomName p.room)).getD [] ∧
      (alookup (joinHandler st sid p).1.userProfiles sid).bind Profile.room
        = some (sanitizeRoomName p.room)) := by
  by_cases h1 : sanitizeRoomName p.room = ""
  · simp [joinHandler, h1, JoinReply.isOk]
  · rcases h2 : alookup st.roomDirectory (sanitizeRoomName p.room) with _ | info
    · simp [joinHandler, h1, h2, JoinReply.isOk]
    · by_cases h3 : passwordMatches info.password p.password = true
      · by_cases h4 : (match p.user with | some u => jsTrim u | none => "") = ""
        · simp [joinHandler, h1, h2, h3, h4, JoinReply.isOk]
        · have hnn : (alookup st.roomDirectory (sanitizeRoomName p.room)).isNone = false := by
            rw [h2]; rfl
          have hsock := ensureRoom_lookup_sockets st (sanitizeRoomName p.room) hnn
          rcases hE : ensureRoom st (sanitizeRoomName p.room) with ⟨st1, b⟩
          have hb : b = true := by
            have hsnd := congrArg Prod.snd hE
            rw [ensureRoom_snd, hnn] at hsnd
            simpa using hsnd.symm
          subst hb
          rw [hE] at hsock
          have hprof : st1.userProfiles = st.userProfiles := by
            have := ensureRoom_userProfiles st (sanitizeRoomName p.room)
            rw [hE] at this
            exact this
          have hsockne : ∀ r', r' ≠ sanitizeRoomName p.room →
              alookup st1.roomSockets r' = alookup st.roomSockets r' := by
            intro r' hr'
            have := ensureRoom_lookup_sockets_ne st (sanitizeRoomName p.room) r' hr'
            rw [hE] at this
            exact this
          have hmemne : ∀ r', r' ≠ sanitizeRoomName p.room →
              alookup st1.roomMembers r' = alookup st.roomMembers r' := by
            intro r' hr'
            have := ensureRoom_lookup_members_ne st (sanitizeRoomName p.room) r' hr'
            rw [hE] at this
            exact this
          simp only [joinHandler, h1, h2, h3, hE, if_neg h1, if_neg h4, not_true,
            Bool.true_eq_false, if_false, ite_false, JoinReply.isOk]
          constructor
          · intro r' hr'
            constructor
            · rw [alookup_aset_ne _ _ _ _ hr', hsockne r' hr']
            · rw [alookup_aset_ne _ _ _ _ hr', hmemne r' hr']
          · intro
            constructor
            · rw [alookup_aset_self]
              simp [mem_sadd]
            · rw [hprof, alookup_aset_self]
              rfl
      · simp [joinHandler, h1, h2, h3, JoinReply.isOk]

theorem C2_join_registers_without_deregistering_witness :
    (alookup (joinHandler stTwoRooms "s" ⟨some "b", some "p", some "u", none⟩).1.roomSockets "a"
       = alookup stTwoRooms.roomSockets "a") ∧
    "s" ∈ (alookup (joinHandler stTwoRooms "s" ⟨some "b", some "p", some "u", none⟩).1.roomSockets
       (sanitizeRoomName (some "b"))).getD [] :=
  ⟨((C2_join_registers_without_deregistering stTwoRooms "s"
        ⟨some "b", some "p", some "u", none⟩).1 "a" (by decide)).1,
   ((C2_join_registers_without_deregistering stTwoRooms "s"
        ⟨some "b", some "p", some "u", none⟩).2 (by decide)).1⟩

/-- C6: every failing `join` request (empty room name, unknown room, wrong
password, empty display name after trim) leaves the server state — room
directory, socket sets, member maps, profile store, call roster and
message history — exactly as it was, and emits nothing: all validation
checks run before any mutation. -/
theorem C6_join_failure_no_mutation (st : ServerState) (sid : String)
    (p : JoinPayload)
    (hfail : (joinHandler st sid p).2.2.isOk = false) :
    (joinHandler st sid p).1 = st ∧ (joinHandler st sid p).2.1 = [] := by
  by_cases h1 : sanitizeRoomName p.room = ""
  · simp [joinHandler, h1]
  · rcases h2 : alookup st.roomDirectory (sanitizeRoomName p.room) with _ | info
    · simp [joinHandler, h1, h2]
    · by_cases h3 : passwordMatches info.password p.password = true
      · by_cases h4 : (match p.user with | some u => jsTrim u | none => "") = ""
        · simp [joinHandler, h1, h2, h3, h4]
        · exfalso
          have hnn : (alookup st.roomDirectory (sanitizeRoomName p.room)).isNone = false := by
            rw [h2]; rfl
          rcases hE : ensureRoom st (sanitizeRoomName p.room) with ⟨st1, b⟩
          have hb : b = true := by
            have hsnd := congrArg Prod.snd hE
            rw [ensureRoom_snd, hnn] at hsnd
            simpa using hsnd.symm
          subst hb
          simp only [joinHandler, h1, h2, h3, hE, if_neg h1, if_neg h4, not_true,
            Bool.true_eq_false, if_false, ite_false, JoinReply.isOk] at hfail
      · simp [joinHandler, h1, h2, h3]

theorem C6_join_failure_no_mutation_witness :
    (joinHandler stFive "s6" ⟨some "r", some "wrong", some "u6", none⟩).1 = stFive ∧
    (joinHandler stFive "s6" ⟨some "r", some "wrong", some "u6", none⟩).2.1 = [] :=
  C6_join_failure_no_mutation stFive "s6" ⟨some "r", some "wrong", some "u6", none⟩
    (by decide)

/-- C7 counterexample: session `"x"` is not a member of room `"r"`, yet its
`webrtc` event naming `"r"` is forwarded to all five members of that room
— the handler performs no membership check. -/
theorem C7_webrtc_no_membership_check_counterexample :
    "x" ∉ (alookup stFive.roomSockets "r").getD [] ∧
    (webrtcHandler stFive "x" (some "r")).1 = some "r" ∧
    (webrtcHandler stFive "x" (some "r")).2 = ["s1", "s2", "s3", "s4", "s5"] := by
  decide

/-- C7 (amended): a `webrtc` payload is forwarded to the resolved target
room — the trimmed room name from the payload when non-empty, otherwise
the sender's current profile room — and to all of that room's sockets
except the sender; it is silently discarded exactly when neither resolves
(empty trimmed name and no truthy profile room).  The sender's membership
in the target room is never checked. -/
theorem C7_webrtc_forwarding_target (st : ServerState) (sid : String)
    (room : Option String) :
    (sanitizeRoomName room ≠ "" →
      webrtcHandler st sid room
        = (some (sanitizeRoomName room),
           ((alookup st.roomSockets (sanitizeRoomName room)).getD []).filter
             (fun x => x ≠ sid))) ∧
    (sanitizeRoomName room = "" →
      ((webrtcHandler st sid room).1 = none ↔
        truthyStr ((alookup st.userProfiles sid).bind Profile.room) = false)) ∧
    (∀ pr r, sanitizeRoomName room = "" →
      alookup st.userProfiles sid = some pr → pr.room = some r → r ≠ "" →
      webrtcHandler st sid room
        = (some r, ((alookup st.roomSockets r).getD []).filter (fun x => x ≠ sid))) := by
  refine ⟨?_, ?_, ?_⟩
  · intro h
    simp [webrtcHandler, h]
  · intro h
    rcases hb : (alookup st.userProfiles sid).bind Profile.room with _ | r
    · simp [webrtcHandler, h, hb, truthyStr]
    · by_cases hr : r = ""
      · subst hr
        simp [webrtcHandler, h, hb, truthyStr]
      · simp [webrtcHandler, h, hb, hr, truthyStr]
  · intro pr r h hpr hroom hrne
    simp [webrtcHandler, h, hpr, hroom, hrne]

theorem C7_webrtc_forwarding_target_witness :
    (webrtcHandler stFive "x" (some "r")
       = (some (sanitizeRoomName (some "r")),
          ((alookup stFive.roomSockets (sanitizeRoomName (some "r"))).getD []).filter
            (fun x => x ≠ "x"))) ∧
    ((webrtcHandler stFive "x" none).1 = none ↔
      truthyStr ((alookup stFive.userProfiles "x").bind Profile.room) = false) ∧
    (webrtcHandler stFive "s1" none
      = (some "r", ((alookup stFive.roomSockets "r").getD []).filter (fun x => x ≠ "s1"))) :=
  ⟨(C7_webrtc_forwarding_target stFive "x" (some "r")).1 (by decide),
   (C7_webrtc_forwarding_target stFive "x" none).2.1 (by decide),
   (C7_webrtc_forwarding_target stFive "s1" none).2.2
     { user := "u1", icon := none, room := some "r" } "r"
     (by decide) (by decide) (by decide) (by decide)⟩

/-- Folding the history push over any entry sequence keeps exactly the
last `MAX_MESSAGES_PER_ROOM` entries, in order. -/
theorem foldl_appendHistory_drop (es : List ChatPayload) :
    List.foldl appendHistory [] es = es.drop (es.length - MAX_MESSAGES_PER_ROOM) := by
  induction es using List.reverseRecOn with
  | nil => simp
  | append_singleton es e ih =>
    have hM : MAX_MESSAGES_PER_ROOM = 500 := rfl
    rw [List.foldl_append, List.foldl_cons, List.foldl_nil, ih]
    by_cases hL : es.length < MAX_MESSAGES_PER_ROOM
    · have h0 : es.length - MAX_MESSAGES_PER_ROOM = 0 := by omega
      rw [h0, List.drop_zero]
      have hcond : ¬ ((es ++ [e]).length > MAX_MESSAGES_PER_ROOM) := by
        simp only [List.length_append, List.length_cons, List.length_nil]
        omega
      have h1 : (es ++ [e]).length - MAX_MESSAGES_PER_ROOM = 0 := by
        simp only [List.length_append, List.length_cons, List.length_nil]
        omega
      simp only [appendHistory, if_neg hcond, h1, List.drop_zero]
    · have hDlen : (es.drop (es.length - MAX_MESSAGES_PER_ROOM)).length
          = MAX_MESSAGES_PER_ROOM := by
        rw [List.length_drop]
        omega
      have hcond : (es.drop (es.length - MAX_MESSAGES_PER_ROOM) ++ [e]).length
          > MAX_MESSAGES_PER_ROOM := by
        simp only [List.length_append, hDlen, List.length_cons, List.length_nil]
        omega
      have h1 : (es.drop (es.length - MAX_MESSAGES_PER_ROOM) ++ [e]).length
          - MAX_MESSAGES_PER_ROOM = 1 := by
        simp only [List.length_append, hDlen, List.length_cons, List.length_nil]
        omega
      simp only [appendHistory, if_pos hcond, h1]
      rw [List.drop_append_of_le_length
          (by rw [hDlen, hM]; omega :
            1 ≤ (es.drop (es.length - MAX_MESSAGES_PER_ROOM)).length),
        List.drop_drop]
      have h2 : (es ++ [e]).length - MAX_MESSAGES_PER_ROOM
          = es.length - MAX_MESSAGES_PER_ROOM + 1 := by
        simp only [List.length_append, List.length_cons, List.length_nil]
        omega
      rw [h2,
        List.drop_append_of_le_length
          (by rw [hM] at hL ⊢; omega :
            es.length - MAX_MESSAGES_PER_ROOM + 1 ≤ es.length)]

/-- C8: the per-room history buffer never exceeds `MAX_MESSAGES_PER_ROOM`
(500) entries and eviction is FIFO: appending 501 entries to an empty
buffer leaves exactly the last 500 in insertion order — entry 1 has been
evicted and entry 2 is now first. -/
theorem C8_history_capped_fifo :
    (∀ (l : List ChatPayload) (e : ChatPayload),
      l.length ≤ MAX_MESSAGES_PER_ROOM →
      (appendHistory l e).length ≤ MAX_MESSAGES_PER_ROOM) ∧
    (∀ es : List ChatPayload, es.length = MAX_MESSAGES_PER_ROOM + 1 →
      List.foldl appendHistory [] es = es.drop 1 ∧
      (List.foldl appendHistory [] es).length = MAX_MESSAGES_PER_ROOM ∧
      (List.foldl appendHistory [] es).head? = es[1]?) := by
  constructor
  · intro l e hl
    by_cases hcond : (l ++ [e]).length > MAX_MESSAGES_PER_ROOM
    · simp only [appendHistory, if_pos hcond, List.length_drop]
      omega
    · simp only [appendHistory, if_neg hcond]
      omega
  · intro es hes
    have hd : List.foldl appendHistory [] es = es.drop 1 := by
      rw [foldl_appendHistory_drop, hes]
      congr 1
    refine ⟨hd, ?_, ?_⟩
    · rw [hd, List.length_drop, hes]
      decide
    · rw [hd, List.head?_drop]

theorem C8_history_capped_fifo_witness :
    (appendHistory [] (samplePayload 0)).length ≤ MAX_MESSAGES_PER_ROOM ∧
    List.foldl appendHistory []
        ((List.range (MAX_MESSAGES_PER_ROOM + 1)).map samplePayload)
      = ((List.range (MAX_MESSAGES_PER_ROOM + 1)).map samplePayload).drop 1 :=
  ⟨C8_history_capped_fifo.1 [] (samplePayload 0) (by decide),
   (C8_history_capped_fifo.2 ((List.range (MAX_MESSAGES_PER_ROOM + 1)).map samplePayload)
      (by simp)).1⟩

/-- C10: a `message` event carrying a truthy icon, sent by a room member
whose stored profile has no truthy icon, rewrites the profile entry and
the room-member snapshot with that icon before the empty-message check, so
a message with neither text nor location still mutates exactly those two
entries — everything else is unchanged and nothing is broadcast. -/
theorem C10_empty_message_icon_update (st : ServerState) (sid : String)
    (msg : MsgPayload) (now : Nat) (pr : Profile) (room : String)
    (sockets : List String) (members : JMap Member) (existing : Member)
    (hpr : alookup st.userProfiles sid = some pr)
    (hroom : pr.room = some room)
    (hroomne : room ≠ "")
    (hso : alookup st.roomSockets room = some sockets)
    (hmem : sid ∈ sockets)
    (hmicon : truthyStr msg.icon = true)
    (hpicon : truthyStr pr.icon = false)
    (htext : (match msg.text with | some t => jsTrim t | none => "") = "")
    (hloc : msg.location = none)
    (hmembers : alookup st.roomMembers room = some members)
    (hexisting : alookup members sid = some existing) :
    messageHandler st sid msg now =
      ({ st with
          userProfiles := aset st.userProfiles sid { pr with icon := msg.icon }
          roomMembers := aset st.roomMembers room
            (aset members sid { existing with icon := msg.icon }) }, []) := by
  have htr : truthyStr pr.room = true := by
    rw [hroom]
    simp [truthyStr, hroomne]
  have hnr : ¬ ¬ truthyStr pr.room = true := not_not_intro htr
  have hns : ¬ sid ∉ sockets := not_not_intro hmem
  have hic : truthyStr msg.icon = true ∧ ¬ truthyStr pr.icon = true := by
    refine ⟨hmicon, ?_⟩
    simp [hpicon]
  have hte : (match msg.text with | some t => jsTrim t | none => "") = ""
      ∧ msg.location = none := ⟨htext, hloc⟩
  have htr2 : ¬ ¬ truthyStr (some room) = true := by
    simp [truthyStr, hroomne]
  simp only [messageHandler, hpr, if_neg hnr, if_neg htr2, hroom, Option.getD_some,
    hso, if_neg hns, if_pos hic, hmembers, hexisting, if_pos hte]

theorem C10_empty_message_icon_update_witness :
    messageHandler stFive "s1" ⟨none, none, some "i"⟩ 0 =
      ({ stFive with
          userProfiles := aset stFive.userProfiles "s1"
            { user := "u1", icon := some "i", room := some "r" }
          roomMembers := aset stFive.roomMembers "r"
            (aset [("s1", { id := "s1", user := "u1", icon := none }),
                   ("s2", { id := "s2", user := "u2", icon := none }),
                   ("s3", { id := "s3", user := "u3", icon := none }),
                   ("s4", { id := "s4", user := "u4", icon := none }),
                   ("s5", { id := "s5", user := "u5", icon := none })] "s1"
              { id := "s1", user := "u1", icon := some "i" }) }, []) :=
  C10_empty_message_icon_update stFive "s1" ⟨none, none, some "i"⟩ 0
    { user := "u1", icon := none, room := some "r" } "r"
    ["s1", "s2", "s3", "s4", "s5"]
    [("s1", { id := "s1", user := "u1", icon := none }),
     ("s2", { id := "s2", user := "u2", icon := none }),
     ("s3", { id := "s3", user := "u3", icon := none }),
     ("s4", { id := "s4", user := "u4", icon := none }),
     ("s5", { id := "s5", user := "u5", icon := none })]
    { id := "s1", user := "u1", icon := none }
    (by decide) (by decide) (by decide) (by decide) (by decide) (by decide)
    (by decide) (by decide) (by decide) (by decide) (by decide)

/-- C9: when the `call-participation` leave branch removes the last
participant of a room, the internal call-roster entry for the room is
removed entirely (absent, not empty), the broadcast sent to the room
carries the empty list, and the participant payload of the resulting state
is the same `[]` that any state with no roster entry for the room
produces. -/
theorem C9_last_call_leave_roster_absent (st : ServerState) (sid : String)
    (data : CallPayload) (r : String) (pr : Profile) (info : Member)
    (sockets : List String)
    (hwf : (st.callParticipants.map Prod.fst).Nodup)
    (hact : data.action = some "leave")
    (hpr : alookup st.userProfiles sid = some pr)
    (hproom : truthyStr pr.room = true)
    (hres : sanitizeRoomName data.room = r)
    (hrne : r ≠ "")
    (hdir : (alookup st.roomDirectory r).isNone = false)
    (hso : alookup st.roomSockets r = some sockets)
    (hmem : sid ∈ sockets)
    (hpart : alookup ((alookup st.callParticipants r).getD []) sid = some info)
    (hlast : adelete ((alookup st.callParticipants r).getD []) sid = []) :
    alookup (callParticipationHandler st sid data).1.callParticipants r = none ∧
    participantsPayload (callParticipationHandler st sid data).1 r = [] ∧
    (callParticipationHandler st sid data).2 = [Emit.callParticipantsToRoom r []] ∧
    (∀ st2 : ServerState, alookup st2.callParticipants r = none →
      participantsPayload st2 r = []) := by
  have hta : ¬ ¬ truthyStr data.action = true := by
    rw [hact]
    decide
  have htb : ¬ ¬ truthyStr pr.room = true := not_not_intro hproom
  have hns : ¬ sid ∉ sockets := not_not_intro hmem
  have hps : (alookup ((alookup st.callParticipants r).getD []) sid).isSome = true := by
    rw [hpart]
    rfl
  have hdel : alookup (adelete st.callParticipants r) r = none :=
    alookup_adelete_self st.callParticipants r hwf
  have hred : callParticipationHandler st sid data
      = ({ st with callParticipants := adelete st.callParticipants r },
         [Emit.callParticipantsToRoom r
           (participantsPayload { st with callParticipants := adelete st.callParticipants r } r)]) := by
    simp only [callParticipationHandler, if_neg hta, hpr, if_neg htb, hres,
      if_pos hrne, hdir, Bool.false_eq_true, if_false, hso, if_neg hns, hact,
      if_pos rfl, if_pos hps, hlast, List.isEmpty_nil, if_true, ite_true,
      if_pos trivial,
      if_neg (show ¬ ¬ truthyStr (some "leave") = true by decide),
      List.nil_append]
  have hpay : participantsPayload
      { st with callParticipants := adelete st.callParticipants r } r = [] := by
    simp [participantsPayload, hdel]
  refine ⟨?_, ?_, ?_, ?_⟩
  · rw [hred]
    exact hdel
  · rw [hred]
    exact hpay
  · rw [hred, hpay]
  · intro st2 h2
    simp [participantsPayload, h2]

theorem C9_last_call_leave_roster_absent_witness :
    alookup (callParticipationHandler stCall "s1"
      ⟨some "leave", some "r", none, none⟩).1.callParticipants "r" = none ∧
    participantsPayload (callParticipationHandler stCall "s1"
      ⟨some "leave", some "r", none, none⟩).1 "r" = [] ∧
    (callParticipationHandler stCall "s1" ⟨some "leave", some "r", none, none⟩).2
      = [Emit.callParticipantsToRoom "r" []] ∧
    participantsPayload stTwoRooms "r" = [] := by
  have h := C9_last_call_leave_roster_absent stCall "s1"
    ⟨some "leave", some "r", none, none⟩ "r"
    { user := "u1", icon := none, room := some "r" }
    { id := "s1", user := "u1", icon := none } ["s1", "s2"]
    (by decide) (by decide) (by decide) (by decide) (by decide) (by decide)
    (by decide) (by decide) (by decide) (by decide) (by decide)
  exact ⟨h.1, h.2.1, h.2.2.1, h.2.2.2 stTwoRooms (by decide)⟩

/-- The profile-clearing fold of `deleteRoom` touches only `userProfiles`. -/
theorem profileClear_foldl_fields (l : List String) (st : ServerState) :
    (l.foldl (fun (acc : ServerState) (sidI : String) =>
        match alookup acc.userProfiles sidI with
        | some pr => { acc with userProfiles := aset acc.userProfiles sidI { pr with room := none } }
        | none => acc) st).roomSockets = st.roomSockets ∧
    (l.foldl (fun (acc : ServerState) (sidI : String) =>
        match alookup acc.userProfiles sidI with
        | some pr => { acc with userProfiles := aset acc.userProfiles sidI { pr with room := none } }
        | none => acc) st).roomMessages = st.roomMessages ∧
    (l.foldl (fun (acc : ServerState) (sidI : String) =>
        match alookup acc.userProfiles sidI with
        | some pr => { acc with userProfiles := aset acc.userProfiles sidI { pr with room := none } }
        | none => acc) st).roomMembers = st.roomMembers ∧
    (l.foldl (fun (acc : ServerState) (sidI : String) =>
        match alookup acc.userProfiles sidI with
        | some pr => { acc with userProfiles := aset acc.userProfiles sidI { pr with room := none } }
        | none => acc) st).callParticipants = st.callParticipants := by
  induction l generalizing st with
  | nil => exact ⟨rfl, rfl, rfl, rfl⟩
  | cons e rest ih =>
    simp only [List.foldl_cons]
    rcases h : alookup st.userProfiles e with _ | pr
    · simp only [h]
      exact ih st
    · simp only [h]
      exact ih _

/-- C3 counterexample: after `"s"` has joined room `"a"` and then `"b"`,
its disconnect removes the profile entry but leaves the session registered
in room `"a"`'s socket set and member map — teardown only reaches the room
recorded in the profile. -/
theorem C3_disconnect_counterexample :
    alookup (disconnectHandler stDouble "s").1.userProfiles "s" = none ∧
    "s" ∈ (alookup (disconnectHandler stDouble "s").1.roomSockets "a").getD [] ∧
    (alookup ((alookup (disconnectHandler stDouble "s").1.roomMembers "a").getD [])
      "s").isSome = true := by
  decide

/-- C3 (amended): disconnect always deletes the session's profile entry;
it removes the session from the socket set, member map and call roster of
the room recorded in its profile, but not from other rooms in which stale
registrations may remain after overlapping joins; a disconnect of a
session with no current room only deletes the profile entry, emitting
nothing.  An admin room deletion leaves no socket set, member map, call
roster or history entry for the deleted room. -/
theorem C3_disconnect_partial_teardown (st : ServerState) (sid : String)
    (hwf : WFState st) :
    alookup (disconnectHandler st sid).1.userProfiles sid = none ∧
    (∀ pr r, alookup st.userProfiles sid = some pr → pr.room = some r → r ≠ "" →
      sid ∉ (alookup (disconnectHandler st sid).1.roomSockets r).getD [] ∧
      alookup ((alookup (disconnectHandler st sid).1.roomMembers r).getD []) sid = none ∧
      alookup ((alookup (disconnectHandler st sid).1.callParticipants r).getD []) sid = none) ∧
    ((alookup st.userProfiles sid).bind Profile.room = none →
      (disconnectHandler st sid).1
        = { st with userProfiles := adelete st.userProfiles sid } ∧
      (disconnectHandler st sid).2 = []) ∧
    (∀ name : Option String,
      match deleteRoom st name with
      | .ok (st2, _) =>
        alookup st2.roomSockets (sanitizeRoomName name) = none ∧
        alookup st2.roomMembers (sanitizeRoomName name) = none ∧
        alookup st2.callParticipants (sanitizeRoomName name) = none ∧
        alookup st2.roomMessages (sanitizeRoomName name) = none
      | .error _ => True) := by
  obtain ⟨h1, h2, h3, h4, h5, h6, h7, h8, h9⟩ := hwf
  have hup : (disconnectHandler st sid).1.userProfiles
      = adelete st.userProfiles sid := by
    by_cases hb : truthyStr ((alookup st.userProfiles sid).bind Profile.room) = true
    · simp [disconnectHandler, hb]
    · simp [disconnectHandler, hb]
  refine ⟨?_, ?_, ?_, ?_⟩
  · rw [hup]
    exact alookup_adelete_self _ _ h4
  · intro pr r hpr hroom hrne
    have hso : (disconnectHandler st sid).1.roomSockets
        = removeSocketEntry st.roomSockets r sid := by
      simp [disconnectHandler, hpr, hroom, truthyStr, hrne]
    have hmm1 : (disconnectHandler st sid).1.roomMembers
        = (removeMemberEntry st.roomMembers r sid).1 := by
      simp [disconnectHandler, hpr, hroom, truthyStr, hrne]
    have hcc : (disconnectHandler st sid).1.callParticipants
        = (removeCallEntry st.callParticipants r sid).1 := by
      simp [disconnectHandler, hpr, hroom, truthyStr, hrne]
    refine ⟨?_, ?_, ?_⟩
    · rw [hso, removeSocket_getD]
      apply not_mem_sdelete_self
      rcases hS : alookup st.roomSockets r with _ | ids
      · simp
      · simpa using h7 _ (alookup_mem _ _ _ hS)
    · rw [hmm1, removeMember_getD]
      apply alookup_adelete_self
      rcases hS : alookup st.roomMembers r with _ | members
      · simp
      · simpa using h9 _ (alookup_mem _ _ _ hS)
    · rw [hcc, removeCall_getD _ _ _ h5]
      apply alookup_adelete_self
      rcases hS : alookup st.callParticipants r with _ | parts
      · simp
      · simpa using h8 _ (alookup_mem _ _ _ hS)
  · intro hb
    constructor
    · simp [disconnectHandler, hb, truthyStr]
    · simp [disconnectHandler, hb, truthyStr]
  · intro name
    rcases hd : alookup st.roomDirectory (sanitizeRoomName name) with _ | info
    · simp [deleteRoom, hd]
    · rcases hs : alookup st.roomSockets (sanitizeRoomName name) with _ | socks
      · simp only [deleteRoom, hd, hs, Option.isNone_some, Bool.false_eq_true,
          if_false, ite_false]
        exact ⟨trivial, alookup_adelete_self _ _ h6, alookup_adelete_self _ _ h5,
          alookup_adelete_self _ _ h3⟩
      · obtain ⟨f1, f2, f3, f4⟩ := profileClear_foldl_fields socks st
        simp only [deleteRoom, hd, hs, Option.isNone_some, Bool.false_eq_true,
          if_false, ite_false]
        refine ⟨?_, ?_, ?_, ?_⟩
        · rw [f1]
          exact alookup_adelete_self _ _ h2
        · rw [f3]
          exact alookup_adelete_self _ _ h6
        · rw [f4]
          exact alookup_adelete_self _ _ h5
        · rw [f2]
          exact alookup_adelete_self _ _ h3

theorem C3_disconnect_partial_teardown_witness :
    alookup (disconnectHandler stFive "s1").1.userProfiles "s1" = none ∧
    "s1" ∉ (alookup (disconnectHandler stFive "s1").1.roomSockets "r").getD [] ∧
    alookup ((alookup (disconnectHandler stFive "s1").1.roomMembers "r").getD []) "s1" = none ∧
    alookup ((alookup (disconnectHandler stFive "s1").1.callParticipants "r").getD []) "s1" = none ∧
    ((disconnectHandler stFive "x").1
        = { stFive with userProfiles := adelete stFive.userProfiles "x" } ∧
      (disconnectHandler stFive "x").2 = []) ∧
    (match deleteRoom stFive (some "r") with
      | .ok (st2, _) =>
        alookup st2.roomSockets (sanitizeRoomName (some "r")) = none ∧
        alookup st2.roomMembers (sanitizeRoomName (some "r")) = none ∧
        alookup st2.callParticipants (sanitizeRoomName (some "r")) = none ∧
        alookup st2.roomMessages (sanitizeRoomName (some "r")) = none
      | .error _ => True) := by
  have h := C3_disconnect_partial_teardown stFive "s1" (by decide)
  have hx := C3_disconnect_partial_teardown stFive "x" (by decide)
  obtain ⟨p1, p2, p3⟩ := h.2.1 { user := "u1", icon := none, room := some "r" } "r"
    (by decide) (by decide) (by decide)
  exact ⟨h.1, p1, p2, p3, hx.2.2.1 (by decide), h.2.2.2 (some "r")⟩

end PwaChat
